import Mathlib

/-! Verification of the ribofinder repository against its specification.

The visible source of the repository is `setup.py`, a packaging script; the
spec reconstructs the classification/quantification core (Classifier,
Aggregator) that the packaged pipeline implements.  Definitions for the
core are therefore modelled from the words of the spec; definitions for the
packaging behaviour are embedded from `setup.py`.
-/

namespace Ribofinder

/-- Modelled from the spec: the category set of the Classifier is missing from
src; §4.2 and §9 give a tagged-variant category
rRNA, non-rRNA, ambiguous or unmapped. -/
inductive Category where
  | rRNA
  | nonRRNA
  | ambiguous
  | unmapped
deriving DecidableEq, Repr

/-- Modelled from the spec: references are "tagged rRNA or other" (§4.1);
the tag of the reference an AlignmentHit points at. -/
inductive RefTag where
  | rRNA
  | other
deriving DecidableEq, Repr

/-- Modelled from the spec: the AlignmentHit record is missing from src;
§3 lists read identifier, reference name, reference category (rRNA |
other) and alignment score (coordinates are irrelevant to
classification and omitted). -/
structure AlignmentHit where
  readId : String
  refName : String
  tag : RefTag
  score : ℚ
deriving DecidableEq, Repr

/-- Modelled from the spec: the configuration options the core recognises
(§6): minimum identity/score threshold and the ambiguity score-tolerance
window used by the Classifier. -/
structure Config where
  minScore : ℚ
  ambiguityTolerance : ℚ
deriving DecidableEq, Repr

/-- Modelled from the spec: the hits of a read that clear the configured
minimum score threshold (§4.2: "above a configurable minimum
identity/score threshold"). -/
def goodHits (cfg : Config) (hits : List AlignmentHit) : List AlignmentHit :=
  hits.filter (fun h => decide (cfg.minScore ≤ h.score))

/-- Modelled from the spec: the above-threshold hits against rRNA-tagged
references. -/
def rRNAHits (cfg : Config) (hits : List AlignmentHit) : List AlignmentHit :=
  (goodHits cfg hits).filter (fun h => h.tag == RefTag.rRNA)

/-- Modelled from the spec: the above-threshold hits against other-tagged
references. -/
def otherHits (cfg : Config) (hits : List AlignmentHit) : List AlignmentHit :=
  (goodHits cfg hits).filter (fun h => h.tag == RefTag.other)

/-- Modelled from the spec: the best (maximum) alignment score of a hit
list; on an empty list the value is unused by the Classifier. -/
def bestScore : List AlignmentHit → ℚ
  | [] => 0
  | h :: t => t.foldl (fun acc x => max acc x.score) h.score

/-- Modelled from the spec: the per-read policy of the Classifier is missing
from src; §4.2 assigns exactly one category from the AlignmentHits of a read:
rRNA when the above-threshold hits are exclusively rRNA-tagged, non-rRNA
when exclusively other-tagged, unmapped when no hit clears the threshold,
and when both categories are hit, ambiguous iff the two best scores are
within the score-tolerance window, else the higher-scoring category. -/
def classifyRead (cfg : Config) (hits : List AlignmentHit) : Category :=
  let rs := rRNAHits cfg hits
  let os := otherHits cfg hits
  if rs.isEmpty then
    if os.isEmpty then Category.unmapped else Category.nonRRNA
  else if os.isEmpty then Category.rRNA
  else
    let bR := bestScore rs
    let bO := bestScore os
    if |bR - bO| ≤ cfg.ambiguityTolerance then Category.ambiguous
    else if bO < bR then Category.rRNA else Category.nonRRNA

/-- Modelled from the spec: the paired-read rule is missing from src;
§4.2: if mate 1 and mate 2 disagree in category and neither is unmapped
the pair is ambiguous; if one mate is unmapped the pair takes the category of the other
mate; mates that agree keep their common category. -/
def classifyPair (c1 c2 : Category) : Category :=
  match c1, c2 with
  | Category.unmapped, c => c
  | c, Category.unmapped => c
  | a, b => if a = b then a else Category.ambiguous

/-- Modelled from the spec: the ClassificationResult record is missing
from src; §3: read identifier and assigned category, plus the name of the
matched reference for the per-reference breakdown. -/
structure ClassificationResult where
  readId : String
  category : Category
  refName : Option String
deriving DecidableEq, Repr

/-- Modelled from the spec: per-category counters of a SampleSummary
(§3: "counts per category"). -/
structure Counts where
  rRNA : Nat
  nonRRNA : Nat
  ambiguous : Nat
  unmapped : Nat
deriving DecidableEq, Repr

def Counts.zero : Counts := ⟨0, 0, 0, 0⟩

/-- Component-wise sum of two per-category counters. -/
def Counts.add (a b : Counts) : Counts :=
  ⟨a.rRNA + b.rRNA, a.nonRRNA + b.nonRRNA,
   a.ambiguous + b.ambiguous, a.unmapped + b.unmapped⟩

/-- The counter of one category. -/
def Counts.get : Counts → Category → Nat
  | c, Category.rRNA => c.rRNA
  | c, Category.nonRRNA => c.nonRRNA
  | c, Category.ambiguous => c.ambiguous
  | c, Category.unmapped => c.unmapped

/-- Increment the counter of one category. -/
def Counts.bump (c : Counts) : Category → Counts
  | Category.rRNA => { c with rRNA := c.rRNA + 1 }
  | Category.nonRRNA => { c with nonRRNA := c.nonRRNA + 1 }
  | Category.ambiguous => { c with ambiguous := c.ambiguous + 1 }
  | Category.unmapped => { c with unmapped := c.unmapped + 1 }

/-- Modelled from the spec: the SampleSummary record is missing from src;
§3: sample identifier, total reads, counts per category and a
per-reference-sequence breakdown (reference name → read count).
Percentages are recomputed from the counts on finalization/merge. -/
structure SampleSummary where
  sampleId : String
  totalReads : Nat
  counts : Counts
  perRef : String → Nat

/-- Modelled from the spec: the fresh per-sample state of the Aggregator
before any ClassificationResult has streamed in. -/
def emptySummary (sid : String) : SampleSummary :=
  { sampleId := sid, totalReads := 0, counts := Counts.zero, perRef := fun _ => 0 }

/-- Modelled from the spec: the incremental update of the Aggregator (§4.3):
bump the category counter and the running total; bump the
per-reference counter only for non-ambiguous, non-unmapped reads. -/
def stepSummary (s : SampleSummary) (r : ClassificationResult) : SampleSummary :=
  { s with
    totalReads := s.totalReads + 1
    counts := s.counts.bump r.category
    perRef :=
      match r.category, r.refName with
      | Category.rRNA, some ref => fun x => if x = ref then s.perRef x + 1 else s.perRef x
      | Category.nonRRNA, some ref => fun x => if x = ref then s.perRef x + 1 else s.perRef x
      | _, _ => s.perRef }

/-- Modelled from the spec: the Aggregator streams the ClassificationResults of a sample into a SampleSummary (§4.3). -/
def aggregate (sid : String) (rs : List ClassificationResult) : SampleSummary :=
  rs.foldl stepSummary (emptySummary sid)

/-- Modelled from the spec: finalized percentage of one category
(§4.3: category count / total reads × 100, with total reads = 0
yielding 0% rather than a division fault). -/
def percent (s : SampleSummary) (cat : Category) : ℚ :=
  if s.totalReads = 0 then 0
  else (s.counts.get cat : ℚ) / (s.totalReads : ℚ) * 100

/-- Modelled from the spec: the merge of two SampleSummary values (§4.3):
sum the category counts, totals and per-reference counters; percentages
are recomputed from the merged counts by `percent`. -/
def mergeSummary (a b : SampleSummary) : SampleSummary :=
  { sampleId := a.sampleId ++ "+" ++ b.sampleId
    totalReads := a.totalReads + b.totalReads
    counts := a.counts.add b.counts
    perRef := fun ref => a.perRef ref + b.perRef ref }

/-- Modelled from the spec: the error raised on a malformed AlignmentHit
(§4.2: "malformed AlignmentHit (missing required fields) is rejected with
a MalformedHitError"); it records which required field is missing. -/
inductive MalformedHitError where
  | missingField (field : String)
deriving DecidableEq, Repr

/-- Modelled from the spec: an AlignmentHit as received from the external
alignment tool before validation, every required field possibly absent. -/
structure RawHit where
  readId : Option String
  refName : Option String
  tag : Option RefTag
  score : Option ℚ
deriving DecidableEq, Repr

/-- Modelled from the spec: validation of a raw hit; a missing required
field is rejected with a `MalformedHitError` naming the field. -/
def parseHit (r : RawHit) : Except MalformedHitError AlignmentHit :=
  match r.readId, r.refName, r.tag, r.score with
  | some a, some b, some c, some d => Except.ok ⟨a, b, c, d⟩
  | none, _, _, _ => Except.error (MalformedHitError.missingField "read_id")
  | _, none, _, _ => Except.error (MalformedHitError.missingField "reference_name")
  | _, _, none, _ => Except.error (MalformedHitError.missingField "reference_category")
  | _, _, _, none => Except.error (MalformedHitError.missingField "score")

/-- Validate the raw hits of a read, failing on the first malformed one. -/
def parseHits : List RawHit → Except MalformedHitError (List AlignmentHit)
  | [] => Except.ok []
  | r :: rest =>
    match parseHit r with
    | Except.error e => Except.error e
    | Except.ok h =>
      match parseHits rest with
      | Except.error e => Except.error e
      | Except.ok hs => Except.ok (h :: hs)

/-- Modelled from the spec: classification of one read from its raw hits
with local error recovery (§4.2, §7): a `MalformedHitError` routes the
read to unmapped with a flagged warning (the Bool) instead of aborting. -/
def classifyReadHits (cfg : Config) (raw : List RawHit) : Category × Bool :=
  match parseHits raw with
  | Except.ok hits => (classifyRead cfg hits, false)
  | Except.error _ => (Category.unmapped, true)

/-- Modelled from the spec: processing a whole sample classifies every
hit list of every read in order; per-read errors never abort the sample. -/
def processSample (cfg : Config) (reads : List (List RawHit)) : List (Category × Bool) :=
  reads.map (classifyReadHits cfg)

end Ribofinder

namespace Setup

/-! Embedding of `src/setup.py`, the only source file of the repository.
-/

/-- The pipeline name (`NAME = "ribofinder"` in setup.py). -/
def NAME : String := "ribofinder"

/-- The shell-completion command string both hooks build:
the format call on "sequana_completion --name ... --force " with NAME filled in. -/
def completionCmd (name : String) : String :=
  "sequana_completion --name " ++ name ++ " --force "

/-- Split a character list at every occurrence of `sep`; the accumulator
holds the current token reversed. -/
def splitChar (sep : Char) : List Char → List Char → List (List Char)
  | [], acc => [acc.reverse]
  | c :: rest, acc =>
    if c = sep then acc.reverse :: splitChar sep rest []
    else splitChar sep rest (c :: acc)

/-- The Python str.split() call on the command string: split on whitespace and
drop empty tokens. -/
def pySplit (s : String) : List String :=
  ((splitChar ' ' s.toList []).filter (fun t => !t.isEmpty)).map String.mk

/-- A step performed by a setuptools command hook. -/
inductive SetupStep where
  | subprocessRun (argv : List String)
  | standardInstall
  | standardDevelop
deriving DecidableEq, Repr

/-- Outcome of the `subprocess.run` call inside the `try` block: it either
completes, or raises some exception (e.g. the command being absent). -/
inductive SubprocessOutcome where
  | completed
  | raised (exc : String)
deriving DecidableEq, Repr

/-- `Install.run`: try the completion subprocess (any exception is
swallowed by `except: pass`), then run the standard setuptools install
step. -/
def installRun (oc : SubprocessOutcome) : List SetupStep :=
  (match oc with
   | SubprocessOutcome.completed => [SetupStep.subprocessRun (pySplit (completionCmd NAME))]
   | SubprocessOutcome.raised _ => [])
  ++ [SetupStep.standardInstall]

/-- `Develop.run`: same completion attempt, then the standard setuptools
develop step. -/
def developRun (oc : SubprocessOutcome) : List SetupStep :=
  (match oc with
   | SubprocessOutcome.completed => [SetupStep.subprocessRun (pySplit (completionCmd NAME))]
   | SubprocessOutcome.raised _ => [])
  ++ [SetupStep.standardDevelop]

/-- The `console_scripts` entry-point strings passed to `setup(...)`. -/
def consoleScripts : List String :=
  ["sequana_ribofinder=sequana_pipelines.ribofinder.main:main"]

/-- A parsed console entry point: script name, module path, function. -/
structure EntryPoint where
  name : String
  module : String
  func : String
deriving DecidableEq, Repr

/-- Parse a setuptools console-script specification
`name=module:function`. -/
def parseEntryPoint (s : String) : Option EntryPoint :=
  match splitChar '=' s.toList [] with
  | [n, target] =>
    match splitChar ':' target [] with
    | [m, f] => some ⟨String.mk n, String.mk m, String.mk f⟩
    | _ => none
  | _ => none

end Setup

namespace Ribofinder

/-! Helper lemmas shared by the claim theorems. -/

/-- The grand total of the four per-category counters. -/
def countsTotal (c : Counts) : Nat :=
  c.rRNA + c.nonRRNA + c.ambiguous + c.unmapped

theorem countsTotal_bump (c : Counts) (cat : Category) :
    countsTotal (c.bump cat) = countsTotal c + 1 := by
  cases cat <;> simp [Counts.bump, countsTotal] <;> omega

theorem stepSummary_totalReads (s : SampleSummary) (r : ClassificationResult) :
    (stepSummary s r).totalReads = s.totalReads + 1 := rfl

theorem stepSummary_counts (s : SampleSummary) (r : ClassificationResult) :
    (stepSummary s r).counts = s.counts.bump r.category := rfl

theorem foldl_stepSummary_invariant (rs : List ClassificationResult) :
    ∀ s : SampleSummary,
      countsTotal (rs.foldl stepSummary s).counts = countsTotal s.counts + rs.length
      ∧ (rs.foldl stepSummary s).totalReads = s.totalReads + rs.length := by
  induction rs with
  | nil => intro s; simp
  | cons r rest ih =>
    intro s
    have h := ih (stepSummary s r)
    simp only [List.foldl_cons, List.length_cons]
    rw [h.1, h.2, stepSummary_totalReads, stepSummary_counts, countsTotal_bump]
    omega

theorem Counts.add_assoc (a b c : Counts) :
    Counts.add (Counts.add a b) c = Counts.add a (Counts.add b c) := by
  simp [Counts.add, Nat.add_assoc]

theorem Counts.get_add (a b : Counts) (cat : Category) :
    (Counts.add a b).get cat = a.get cat + b.get cat := by
  cases cat <;> rfl

theorem Counts.add_comm (a b : Counts) :
    Counts.add a b = Counts.add b a := by
  simp [Counts.add, Nat.add_comm]

theorem Counts.add_zero (a : Counts) : Counts.add a Counts.zero = a := by
  simp [Counts.add, Counts.zero]

/-- The component-wise sum of the category counters of a list of
summaries. -/
def sumCounts (l : List SampleSummary) : Counts :=
  (l.map SampleSummary.counts).foldr Counts.add Counts.zero

/-- The sum of the totals of a list of summaries. -/
def sumTotals (l : List SampleSummary) : Nat :=
  (l.map SampleSummary.totalReads).foldr Nat.add 0

theorem sumCounts_cons (x : SampleSummary) (l : List SampleSummary) :
    sumCounts (x :: l) = Counts.add x.counts (sumCounts l) := rfl

theorem sumTotals_cons (x : SampleSummary) (l : List SampleSummary) :
    sumTotals (x :: l) = x.totalReads + sumTotals l := rfl

theorem sumCounts_perm (l l' : List SampleSummary) (h : l.Perm l') :
    sumCounts l = sumCounts l' := by
  induction h with
  | nil => rfl
  | cons x h ih => rw [sumCounts_cons, sumCounts_cons, ih]
  | swap x y l =>
    simp only [sumCounts_cons]
    rw [← Counts.add_assoc, Counts.add_comm y.counts x.counts, Counts.add_assoc]
  | trans h1 h2 ih1 ih2 => exact ih1.trans ih2

theorem sumTotals_perm (l l' : List SampleSummary) (h : l.Perm l') :
    sumTotals l = sumTotals l' := by
  induction h with
  | nil => rfl
  | cons x h ih => rw [sumTotals_cons, sumTotals_cons, ih]
  | swap x y l => simp only [sumTotals_cons]; omega
  | trans h1 h2 ih1 ih2 => exact ih1.trans ih2

theorem foldl_merge_sums (l : List SampleSummary) :
    ∀ base : SampleSummary,
      (l.foldl mergeSummary base).counts = Counts.add base.counts (sumCounts l)
      ∧ (l.foldl mergeSummary base).totalReads = base.totalReads + sumTotals l := by
  induction l with
  | nil => intro base; exact ⟨(Counts.add_zero _).symm, by simp [sumTotals]⟩
  | cons x rest ih =>
    intro base
    have h := ih (mergeSummary base x)
    constructor
    · rw [List.foldl_cons, h.1]
      show Counts.add (Counts.add base.counts x.counts) (sumCounts rest) = _
      rw [Counts.add_assoc, sumCounts_cons]
    · rw [List.foldl_cons, h.2]
      show base.totalReads + x.totalReads + sumTotals rest = _
      rw [sumTotals_cons]
      omega

theorem percent_congr (s t : SampleSummary) (hc : s.counts = t.counts)
    (ht : s.totalReads = t.totalReads) (cat : Category) :
    percent s cat = percent t cat := by
  unfold percent
  rw [hc, ht]

/-! Claim theorems. -/

/-- C1: for every sample processed by the Aggregator, the four category
counts of its SampleSummary sum exactly to the total read count of the sample
(rRNA + non-rRNA + ambiguous + unmapped = total), and that total is the
number of streamed ClassificationResults: no read is double-counted or
dropped. -/
theorem aggregate_counts_sum_to_total (sid : String) (rs : List ClassificationResult) :
    (aggregate sid rs).counts.rRNA + (aggregate sid rs).counts.nonRRNA
      + (aggregate sid rs).counts.ambiguous + (aggregate sid rs).counts.unmapped
      = (aggregate sid rs).totalReads
    ∧ (aggregate sid rs).totalReads = rs.length := by
  have h := foldl_stepSummary_invariant rs (emptySummary sid)
  have h1 := h.1
  have h2 := h.2
  simp [countsTotal, emptySummary, Counts.zero] at h1 h2
  exact ⟨by simpa [aggregate, countsTotal] using h1.trans h2.symm, by simpa [aggregate] using h2⟩

/-- C2: the merge of SampleSummary values is associative, merging in
either order yields the same category counts, totals, per-reference
breakdown and recomputed percentages, and merging any permutation of a
batch of summaries yields the same category counts and recomputed
percentages. -/
theorem mergeSummary_assoc_order_indep (a b c : SampleSummary) :
    mergeSummary (mergeSummary a b) c = mergeSummary a (mergeSummary b c)
    ∧ (mergeSummary a b).counts = (mergeSummary b a).counts
    ∧ (mergeSummary a b).totalReads = (mergeSummary b a).totalReads
    ∧ (mergeSummary a b).perRef = (mergeSummary b a).perRef
    ∧ (∀ cat, percent (mergeSummary a b) cat = percent (mergeSummary b a) cat)
    ∧ ∀ (l l' : List SampleSummary) (base : SampleSummary), l.Perm l' →
        (l.foldl mergeSummary base).counts = (l'.foldl mergeSummary base).counts
        ∧ (l.foldl mergeSummary base).totalReads
            = (l'.foldl mergeSummary base).totalReads
        ∧ ∀ cat, percent (l.foldl mergeSummary base) cat
            = percent (l'.foldl mergeSummary base) cat := by
  refine ⟨?_, ?_, ?_, ?_, ?_, ?_⟩
  · simp only [mergeSummary, SampleSummary.mk.injEq]
    refine ⟨?_, ?_, ?_, ?_⟩
    · simp [String.append_assoc]
    · exact Nat.add_assoc _ _ _
    · exact Counts.add_assoc _ _ _
    · funext ref; exact Nat.add_assoc _ _ _
  · simp [mergeSummary, Counts.add, Nat.add_comm]
  · simp [mergeSummary, Nat.add_comm]
  · funext ref; simp [mergeSummary, Nat.add_comm]
  · intro cat
    unfold percent
    have ht : (mergeSummary a b).totalReads = (mergeSummary b a).totalReads := by
      simp [mergeSummary, Nat.add_comm]
    have hc : (mergeSummary a b).counts.get cat = (mergeSummary b a).counts.get cat := by
      simp [mergeSummary, Counts.get_add, Nat.add_comm]
    rw [ht, hc]
  · intro l l' base h
    have h1 := foldl_merge_sums l base
    have h2 := foldl_merge_sums l' base
    have hcs : (l.foldl mergeSummary base).counts = (l'.foldl mergeSummary base).counts := by
      rw [h1.1, h2.1, sumCounts_perm l l' h]
    have hts : (l.foldl mergeSummary base).totalReads
        = (l'.foldl mergeSummary base).totalReads := by
      rw [h1.2, h2.2, sumTotals_perm l l' h]
    exact ⟨hcs, hts, fun cat => percent_congr _ _ hcs hts cat⟩

/-- Closed witness for C2: merging two concrete summaries in either order
gives the same category counts. -/
theorem mergeSummary_assoc_order_indep_witness :
    (([⟨"s1", 1, ⟨1, 0, 0, 0⟩, fun _ => 0⟩, ⟨"s2", 2, ⟨0, 1, 1, 0⟩, fun _ => 0⟩] :
        List SampleSummary).foldl mergeSummary (emptySummary "batch")).counts
      = (([⟨"s2", 2, ⟨0, 1, 1, 0⟩, fun _ => 0⟩, ⟨"s1", 1, ⟨1, 0, 0, 0⟩, fun _ => 0⟩] :
        List SampleSummary).foldl mergeSummary (emptySummary "batch")).counts :=
  ((mergeSummary_assoc_order_indep (emptySummary "a") (emptySummary "b")
      (emptySummary "c")).2.2.2.2.2
    [⟨"s1", 1, ⟨1, 0, 0, 0⟩, fun _ => 0⟩, ⟨"s2", 2, ⟨0, 1, 1, 0⟩, fun _ => 0⟩]
    [⟨"s2", 2, ⟨0, 1, 1, 0⟩, fun _ => 0⟩, ⟨"s1", 1, ⟨1, 0, 0, 0⟩, fun _ => 0⟩]
    (emptySummary "batch")
    (List.Perm.swap (⟨"s2", 2, ⟨0, 1, 1, 0⟩, fun _ => 0⟩ : SampleSummary)
      (⟨"s1", 1, ⟨1, 0, 0, 0⟩, fun _ => 0⟩ : SampleSummary) [])).1

/-- C5: for a paired read, if the mates disagree in category and neither
is unmapped the pair is ambiguous; if one mate is unmapped the pair takes
the category of the other mate (in particular rRNA with an unmapped mate gives
rRNA). -/
theorem classifyPair_rule (c1 c2 : Category) :
    (c1 ≠ c2 → c1 ≠ Category.unmapped → c2 ≠ Category.unmapped →
       classifyPair c1 c2 = Category.ambiguous)
    ∧ (c1 = Category.unmapped → classifyPair c1 c2 = c2)
    ∧ (c2 = Category.unmapped → classifyPair c1 c2 = c1)
    ∧ classifyPair Category.rRNA Category.unmapped = Category.rRNA := by
  cases c1 <;> cases c2 <;> decide

/-- Closed witness for C5: rRNA vs non-rRNA mates give ambiguous; an
rRNA mate with an unmapped mate gives rRNA. -/
theorem classifyPair_rule_witness :
    classifyPair Category.rRNA Category.nonRRNA = Category.ambiguous
    ∧ classifyPair Category.rRNA Category.unmapped = Category.rRNA :=
  ⟨(classifyPair_rule Category.rRNA Category.nonRRNA).1
      (by decide) (by decide) (by decide),
   (classifyPair_rule Category.rRNA Category.unmapped).2.2.1 rfl⟩

/-- C3: classification is deterministic: two runs of the Classifier on
identical inputs (same per-read hit lists, same configuration) assign
every read the identical category, and the paired-read rule is likewise
a function of the two mate categories alone. -/
theorem classification_deterministic (cfg₁ cfg₂ : Config)
    (reads₁ reads₂ : List (List RawHit))
    (hc : cfg₁ = cfg₂) (hr : reads₁ = reads₂) :
    processSample cfg₁ reads₁ = processSample cfg₂ reads₂
    ∧ ∀ c1 c2 c1' c2', c1 = c1' → c2 = c2' →
        classifyPair c1 c2 = classifyPair c1' c2' := by
  subst hc; subst hr
  refine ⟨rfl, ?_⟩
  intro c1 c2 c1' c2' h1 h2
  subst h1; subst h2
  rfl

/-- Closed witness for C3: a rerun on one concrete sample reproduces the
same classification. -/
theorem classification_deterministic_witness :
    processSample ⟨1, 0⟩ [[⟨some "r1", some "ref", some RefTag.rRNA, some 3⟩]]
      = processSample ⟨1, 0⟩ [[⟨some "r1", some "ref", some RefTag.rRNA, some 3⟩]] :=
  (classification_deterministic ⟨1, 0⟩ ⟨1, 0⟩
    [[⟨some "r1", some "ref", some RefTag.rRNA, some 3⟩]]
    [[⟨some "r1", some "ref", some RefTag.rRNA, some 3⟩]] rfl rfl).1

/-- C4: for a read whose above-threshold hits span both an rRNA-tagged
and an other-tagged reference, the read is ambiguous when the two best
scores are within the configured ambiguity tolerance, and otherwise the
higher-scoring category wins. -/
theorem classify_span_both (cfg : Config) (hits : List AlignmentHit)
    (hR : rRNAHits cfg hits ≠ []) (hO : otherHits cfg hits ≠ []) :
    (|bestScore (rRNAHits cfg hits) - bestScore (otherHits cfg hits)|
        ≤ cfg.ambiguityTolerance
      → classifyRead cfg hits = Category.ambiguous)
    ∧ (cfg.ambiguityTolerance
        < |bestScore (rRNAHits cfg hits) - bestScore (otherHits cfg hits)|
      → classifyRead cfg hits =
          if bestScore (otherHits cfg hits) < bestScore (rRNAHits cfg hits)
          then Category.rRNA else Category.nonRRNA) := by
  have hR' : (rRNAHits cfg hits).isEmpty = false := by
    simpa [List.isEmpty_iff] using hR
  have hO' : (otherHits cfg hits).isEmpty = false := by
    simpa [List.isEmpty_iff] using hO
  constructor
  · intro h
    simp [classifyRead, hR', hO', h]
  · intro h
    simp [classifyRead, hR', hO', not_le.mpr h]

/-- Closed witness for C4: one above-threshold rRNA hit and one
above-threshold other hit with equal scores, tolerance 0: ambiguous. -/
theorem classify_span_both_witness :
    rRNAHits ⟨1, 0⟩ [⟨"r", "ra", RefTag.rRNA, 3⟩, ⟨"r", "g", RefTag.other, 3⟩] ≠ []
    ∧ otherHits ⟨1, 0⟩ [⟨"r", "ra", RefTag.rRNA, 3⟩, ⟨"r", "g", RefTag.other, 3⟩] ≠ []
    ∧ classifyRead ⟨1, 0⟩ [⟨"r", "ra", RefTag.rRNA, 3⟩, ⟨"r", "g", RefTag.other, 3⟩]
        = Category.ambiguous := by
  refine ⟨by decide, by decide, ?_⟩
  apply (classify_span_both ⟨1, 0⟩
    [⟨"r", "ra", RefTag.rRNA, 3⟩, ⟨"r", "g", RefTag.other, 3⟩] (by decide) (by decide)).1
  have e1 : rRNAHits ⟨1, 0⟩ [⟨"r", "ra", RefTag.rRNA, 3⟩, ⟨"r", "g", RefTag.other, 3⟩]
      = [⟨"r", "ra", RefTag.rRNA, 3⟩] := by decide
  have e2 : otherHits ⟨1, 0⟩ [⟨"r", "ra", RefTag.rRNA, 3⟩, ⟨"r", "g", RefTag.other, 3⟩]
      = [⟨"r", "g", RefTag.other, 3⟩] := by decide
  rw [e1, e2]
  show |(3 : ℚ) - 3| ≤ 0
  simp

/-- A hit list containing a malformed hit fails validation as a whole. -/
theorem parseHits_error_of_mem (raw : List RawHit) (r : RawHit) (e : MalformedHitError)
    (hmem : r ∈ raw) (hbad : parseHit r = Except.error e) :
    ∃ e', parseHits raw = Except.error e' := by
  induction raw with
  | nil => cases hmem
  | cons x rest ih =>
    rcases List.mem_cons.mp hmem with h | h
    · subst h
      exact ⟨e, by simp [parseHits, hbad]⟩
    · rcases hx : parseHit x with ex | hx'
      · exact ⟨ex, by simp [parseHits, hx]⟩
      · rcases ih h with ⟨e', he'⟩
        exact ⟨e', by simp [parseHits, hx, he']⟩

/-- C7: a read whose AlignmentHits include one with a missing required
field is rejected with a MalformedHitError, classified unmapped with a
flagged warning, and the rest of the sample is still processed (one
result per read, never aborted). -/
theorem malformed_hit_recovered (cfg : Config) (raw : List RawHit) (r : RawHit)
    (e : MalformedHitError)
    (hmem : r ∈ raw) (hbad : parseHit r = Except.error e) :
    classifyReadHits cfg raw = (Category.unmapped, true)
    ∧ ∀ reads : List (List RawHit), (processSample cfg reads).length = reads.length := by
  obtain ⟨e', he'⟩ := parseHits_error_of_mem raw r e hmem hbad
  refine ⟨?_, ?_⟩
  · simp [classifyReadHits, he']
  · intro reads
    simp [processSample]

/-- Closed witness for C7: a raw hit missing its read identifier makes
the read unmapped with a warning. -/
theorem malformed_hit_recovered_witness :
    classifyReadHits ⟨1, 0⟩ [⟨none, some "ref", some RefTag.rRNA, some 3⟩]
      = (Category.unmapped, true) :=
  (malformed_hit_recovered ⟨1, 0⟩ [⟨none, some "ref", some RefTag.rRNA, some 3⟩]
    ⟨none, some "ref", some RefTag.rRNA, some 3⟩
    (MalformedHitError.missingField "read_id") (by decide) rfl).1

/-- C6: finalizing an empty sample stream yields a SampleSummary with
total reads 0 and a 0% share for every category, with no division
fault. -/
theorem empty_sample_zero_percent (sid : String) :
    (aggregate sid []).totalReads = 0
    ∧ ∀ cat, percent (aggregate sid []) cat = 0 := by
  refine ⟨rfl, ?_⟩
  intro cat
  simp [percent, aggregate, emptySummary]

end Ribofinder

namespace Setup

/-- C8: the packaging script registers exactly one console entry point,
named `sequana_ribofinder`, dispatching to the function `main` of module
`sequana_pipelines.ribofinder.main`. -/
theorem single_entry_point :
    consoleScripts.length = 1
    ∧ parseEntryPoint (consoleScripts.headD "")
        = some ⟨"sequana_ribofinder", "sequana_pipelines.ribofinder.main", "main"⟩ := by
  decide

/-- C9: the install and develop hooks invoke the identical
shell-completion command, whose tokens are
`sequana_completion --name ribofinder --force`, before the standard
setuptools install/develop step. -/
theorem hooks_same_completion_command :
    installRun SubprocessOutcome.completed
      = [SetupStep.subprocessRun (pySplit (completionCmd NAME)), SetupStep.standardInstall]
    ∧ developRun SubprocessOutcome.completed
      = [SetupStep.subprocessRun (pySplit (completionCmd NAME)), SetupStep.standardDevelop]
    ∧ pySplit (completionCmd NAME)
      = ["sequana_completion", "--name", "ribofinder", "--force"] := by
  refine ⟨rfl, rfl, by decide⟩

/-- C10: whatever the completion subprocess does — completing or raising
any exception — each hook still ends with the standard setuptools step,
so a completion failure never makes installation fail. -/
theorem completion_failure_never_blocks_install (oc : SubprocessOutcome) :
    (installRun oc).getLast? = some SetupStep.standardInstall
    ∧ (developRun oc).getLast? = some SetupStep.standardDevelop := by
  cases oc <;> simp [installRun, developRun]

end Setup
